import Mathlib

/-!
Verification of the documentation-governance gate in
`scripts/docs_semantic_review.py` (ColdVox).

The Python source is shallowly embedded below: pure functions become Lean
functions, Python dicts become association lists or structures with
`Option` fields for possibly-missing keys, Python floats (judge
confidences) are modelled as rationals, and Python code that can raise is
embedded as `Option`/`Except`-returning functions.
-/

/-! ## Severity order and gate predicate (lines 29-34, 700-704) -/

/-- `SEVERITY_ORDER` dict: maps a severity string to its numeric rank;
`Option.none` models a key that is absent from the dict. -/
def SEVERITY_ORDER : String → Option Nat := fun s =>
  if s = "none" then some 0
  else if s = "minor" then some 1
  else if s = "major" then some 2
  else if s = "critical" then some 3
  else none

/-- `SEVERITY_ORDER.get(s, 0)` as used in `should_fail`. -/
def sevRankD (s : String) : Nat := (SEVERITY_ORDER s).getD 0

/-- The four valid severity strings (`SEVERITY_ORDER.keys()`). -/
def SEVERITY_KEYS : List String := ["none", "minor", "major", "critical"]

/-- `should_fail(worst, threshold)`: `Option.none` models the `KeyError`
raised by `SEVERITY_ORDER[threshold]` when `threshold` is not a severity
key (the early return for threshold "none" happens before that lookup). -/
def should_fail (worst threshold : String) : Option Bool :=
  if threshold = "none" then some false
  else
    match SEVERITY_ORDER threshold with
    | none => none
    | some t => some (decide (t ≤ sevRankD worst))

/-! ## Python string helpers

Helpers that model the Python `str` methods the source uses.  Character
classes are the ASCII portions of Python's Unicode-aware classes; every
string the policy tables, markers and keywords contain is ASCII. -/

/-- Characters removed by Python `str.strip()` (ASCII whitespace). -/
def pyIsSpace (c : Char) : Bool :=
  c = ' ' || c = '\t' || c = '\n' || c = '\r' || c = '\x0b' || c = '\x0c'

/-- `str.strip()` on a character list. -/
def pyStripChars (cs : List Char) : List Char :=
  ((cs.dropWhile pyIsSpace).reverse.dropWhile pyIsSpace).reverse

/-- `str.strip()` on a string. -/
def pyStrip (s : String) : String := String.mk (pyStripChars s.data)

/-- `str.lower()` (ASCII). -/
def pyLower (s : String) : String := String.mk (s.data.map Char.toLower)

/-- `str.splitlines()` worker: `cur` is the current line, reversed.
Line boundaries modelled: `\n`, `\r\n`, `\r` (the source only ever feeds
it text using these). -/
def pySplitlinesGo : List Char → List Char → List (List Char)
  | cur, [] => if cur.isEmpty then [] else [cur.reverse]
  | cur, '\r' :: '\n' :: rest => cur.reverse :: pySplitlinesGo [] rest
  | cur, '\n' :: rest => cur.reverse :: pySplitlinesGo [] rest
  | cur, '\r' :: rest => cur.reverse :: pySplitlinesGo [] rest
  | cur, c :: rest => pySplitlinesGo (c :: cur) rest

/-- `str.splitlines()` on a character list. -/
def pySplitlines (cs : List Char) : List (List Char) := pySplitlinesGo [] cs

/-- `text.index(pat, start)` modelled on the suffix `text[start:]`:
`suffix` is `text[j:]`, and it returns the absolute index of the first
occurrence of `pat`, or `Option.none` for Python's `ValueError`. -/
def indexOfSubAux (pat : List Char) : List Char → Nat → Option Nat
  | [], j => if pat.isEmpty then some j else none
  | c :: rest, j =>
      if pat.isPrefixOf (c :: rest) then some j else indexOfSubAux pat rest (j + 1)

/-- `text.index(pat, start)` (occurrences at positions `≥ start`). -/
def indexOfSubFrom (pat cs : List Char) (start : Nat) : Option Nat :=
  indexOfSubAux pat (cs.drop start) start

/-! ## Header Extractor: `parse_frontmatter` (lines 206-223) -/

/-- Python dict assignment `d[k] = v`: an existing key keeps its position
and gets the new value, a new key is appended. -/
def dictSet (d : List (String × String)) (k v : String) : List (String × String) :=
  if (d.lookup k).isSome then
    d.map (fun p => if p.1 = k then (k, v) else p)
  else
    d ++ [(k, v)]

/-- `raw.strip().strip("'\"")`: whitespace strip, then strip the quote
characters from both ends. -/
def stripQuotes (cs : List Char) : List Char :=
  let isQuote : Char → Bool := fun c => c = '\x27' || c = '"'
  ((cs.dropWhile isQuote).reverse.dropWhile isQuote).reverse

/-- The loop over `header.splitlines()` that fills the `values` dict. -/
def parseHeaderValues (header : List Char) : List (String × String) :=
  (pySplitlines header).foldl
    (fun values line =>
      let stripped := pyStripChars line
      if stripped.isEmpty || stripped.take 1 = ['#'] || ¬ stripped.contains ':' then
        values
      else
        let key := stripped.takeWhile (fun c => c ≠ ':')
        let raw := (stripped.dropWhile (fun c => c ≠ ':')).drop 1
        dictSet values (String.mk (pyStripChars key))
          (String.mk (stripQuotes (pyStripChars raw))))
    []

/-- Position of the closing marker: `text.index("\n---", 4)`. -/
def frontmatterClosing (cs : List Char) : Option Nat :=
  indexOfSubFrom "\n---".data cs 4

/-- `parse_frontmatter(text)`: returns the metadata mapping and the body.
Both no-header cases (`not text.startswith("---\n")` and the
`ValueError` from `text.index`) return `({}, text)`. -/
def parse_frontmatter (text : String) : List (String × String) × String :=
  let cs := text.data
  if ¬ "---\n".data.isPrefixOf cs then ([], text)
  else
    match frontmatterClosing cs with
    | none => ([], text)
    | some closing =>
        let header := (cs.drop 4).take (closing - 4)
        let body := (cs.drop (closing + 4)).dropWhile (fun c => c = '\n')
        (parseHeaderValues header, String.mk body)

/-! ## Glob matching and placement policy (lines 50-168, 226-297) -/

/-- `fnmatch.fnmatch(name, pattern)` restricted to the pattern features
the policy table uses: `*` matches any (possibly empty) run of
characters, `?` matches one character, everything else is literal
(`os.path.normcase` is the identity on POSIX; the table contains no
`[...]` classes).  Note `**` is just two stars, equivalent to `*`. -/
def fnmatchGo : Nat → List Char → List Char → Bool
  | 0, _, _ => false
  | fuel + 1, ps, cs =>
      match ps, cs with
      | [], [] => true
      | [], _ :: _ => false
      | '*' :: ps', cs =>
          fnmatchGo fuel ps' cs ||
            (match cs with
             | [] => false
             | _ :: cs' => fnmatchGo fuel ('*' :: ps') cs')
      | '?' :: _, [] => false
      | '?' :: ps', _ :: cs' => fnmatchGo fuel ps' cs'
      | _ :: _, [] => false
      | p :: ps', c :: cs' => p = c && fnmatchGo fuel ps' cs'

/-- The matcher with enough fuel: each `fnmatchGo` step shrinks
`ps.length + cs.length`, so the fuel is never exhausted. -/
def fnmatchList (ps cs : List Char) : Bool :=
  fnmatchGo (ps.length + cs.length + 1) ps cs

/-- `path_matches(path, patterns)`. -/
def path_matches (path : String) (patterns : List String) : Bool :=
  patterns.any (fun pattern => fnmatchList pattern.data path.data)

/-- `DOC_TYPE_ALIASES` (lines 50-54). -/
def DOC_TYPE_ALIASES : String → Option String := fun s =>
  if s = "implementation-plan" then some "plan"
  else if s = "dev-guide" then some "reference"
  else if s = "runbook" then some "playbook"
  else none

/-- `normalize_doc_type(raw)` (lines 230-232):
`DOC_TYPE_ALIASES.get(cleaned, cleaned)`. -/
def normalize_doc_type (raw : String) : String :=
  let cleaned := pyLower (pyStrip raw)
  (DOC_TYPE_ALIASES cleaned).getD cleaned

/-- One entry of `DOC_TYPE_PATH_POLICY`. -/
structure PathPolicy where
  preferred : List String
  allowed : List String
deriving DecidableEq, Repr

/-- `DOC_TYPE_PATH_POLICY` (lines 60-168); `Option.none` models an
absent key. -/
def DOC_TYPE_PATH_POLICY : String → Option PathPolicy := fun t =>
  if t = "architecture" then some
    ⟨["docs/architecture.md", "docs/northstar.md", "docs/architecture/**",
      "docs/domains/**", "docs/dev/CI/**"],
     ["docs/plans/**", "docs/archive/**"]⟩
  else if t = "standard" then some
    ⟨["docs/standards.md", "docs/todo.md", "docs/anchor-*.md", "docs/repo/**"],
     ["docs/*.md", "docs/dev/**"]⟩
  else if t = "playbook" then some
    ⟨["docs/playbooks/**", "docs/observability-playbook.md",
      "docs/MasterDocumentationPlaybook.md"],
     ["docs/*.md", "docs/domains/**", "docs/archive/**"]⟩
  else if t = "reference" then some
    ⟨["docs/reference/**", "docs/domains/**", "docs/repo/**",
      "docs/dependencies.md", "docs/logging.md"],
     ["docs/*.md", "docs/playbooks/**"]⟩
  else if t = "research" then some
    ⟨["docs/research/**", "docs/archive/research/**"],
     ["docs/plans/**", "docs/history/**", "docs/archive/**"]⟩
  else if t = "plan" then some
    ⟨["docs/plans/**", "docs/tasks/**", "docs/issues/**"],
     ["docs/research/**", "docs/archive/plans/**", "docs/domains/**"]⟩
  else if t = "troubleshooting" then some
    ⟨["docs/issues/**", "docs/domains/**/troubleshooting/**"],
     ["docs/playbooks/**", "docs/tasks/**", "docs/domains/**"]⟩
  else if t = "index" then some
    ⟨["docs/index.md", "docs/reference/**", "docs/archive/reference/**",
      "docs/**/index.md", "docs/**/overview.md", "docs/**/*-overview.md"],
     ["docs/domains/**", "docs/archive/**"]⟩
  else if t = "history" then some
    ⟨["docs/history/**", "docs/archive/**"],
     ["docs/research/logs/**"]⟩
  else none

/-- The result dict of `evaluate_path_policy`. -/
structure PolicyResult where
  status : String
  severity : String
  raw_doc_type : String
  normalized_doc_type : String
  reason : String
  preferred_paths : List String
  allowed_paths : List String
deriving DecidableEq, Repr

/-- `frontmatter.get("doc_type", "").strip()` (line 236). -/
def raw_doc_type_of (frontmatter : List (String × String)) : String :=
  pyStrip ((frontmatter.lookup "doc_type").getD "")

/-- `evaluate_path_policy(path, frontmatter)` (lines 235-297). -/
def evaluate_path_policy (path : String) (frontmatter : List (String × String)) :
    PolicyResult :=
  let raw_doc_type := raw_doc_type_of frontmatter
  if raw_doc_type = "" then
    { status := "missing-doc-type", severity := "major",
      raw_doc_type := "", normalized_doc_type := "",
      reason := "frontmatter doc_type is missing",
      preferred_paths := [], allowed_paths := [] }
  else
    let normalized_doc_type := normalize_doc_type raw_doc_type
    match DOC_TYPE_PATH_POLICY normalized_doc_type with
    | none =>
        { status := "unknown-doc-type", severity := "major",
          raw_doc_type := raw_doc_type, normalized_doc_type := normalized_doc_type,
          reason := "doc_type \x27" ++ raw_doc_type ++ "\x27 is not recognized by policy",
          preferred_paths := [], allowed_paths := [] }
    | some policy =>
        if path_matches path policy.preferred then
          { status := "ok", severity := "none",
            raw_doc_type := raw_doc_type, normalized_doc_type := normalized_doc_type,
            reason := "path matches preferred placement policy",
            preferred_paths := policy.preferred, allowed_paths := policy.allowed }
        else if path_matches path policy.allowed then
          { status := "placement-drift", severity := "minor",
            raw_doc_type := raw_doc_type, normalized_doc_type := normalized_doc_type,
            reason := "path is allowed but not preferred for this doc_type",
            preferred_paths := policy.preferred, allowed_paths := policy.allowed }
        else
          { status := "placement-invalid", severity := "major",
            raw_doc_type := raw_doc_type, normalized_doc_type := normalized_doc_type,
            reason := "path does not match preferred or allowed placement policy",
            preferred_paths := policy.preferred, allowed_paths := policy.allowed }

/-! ## Claim Extractor: `extract_claim_lines` (lines 314-333) -/

/-- The alternation of the claim regex (lines 315-320), lowercase. -/
def CLAIM_KEYWORDS : List String :=
  ["must", "should", "required", "canonical", "source of truth", "works",
   "supported", "broken", "planned", "deprecated", "removed", "archive", "delete"]

/-- Regex `\w` (ASCII part). -/
def isWordChar (c : Char) : Bool := c.isAlphanum || c = '_'

/-- One keyword matching at the current position with `\b` on both
sides: `prev` is the character before the position (`Option.none` at the
start of the line). -/
def keywordAt (prev : Option Char) (k cs : List Char) : Bool :=
  k.isPrefixOf cs &&
    (match prev with
     | none => true
     | some p => ¬ isWordChar p) &&
    (match cs.drop k.length with
     | [] => true
     | c :: _ => ¬ isWordChar c)

/-- `pattern.search(line)` for the claim regex: scan every position of
the (already lowercased) line for a `\b`-delimited keyword; the
`re.IGNORECASE` flag is modelled by lowercasing the line first. -/
def claimSearch : Option Char → List Char → Bool
  | prev, [] => CLAIM_KEYWORDS.any (fun k => keywordAt prev k.data [])
  | prev, c :: rest =>
      CLAIM_KEYWORDS.any (fun k => keywordAt prev k.data (c :: rest)) ||
        claimSearch (some c) rest

/-- `pattern.search(line)` on a stripped line. -/
def claimPatternMatches (line : List Char) : Bool :=
  claimSearch none (line.map Char.toLower)

/-- The loop of `extract_claim_lines`: `claims` is the accumulator; the
`break` fires as soon as `len(claims) >= max_claims` after an append. -/
def extractClaimGo (max_claims : Nat) : List (List Char) → List (List Char) →
    List (List Char)
  | [], claims => claims
  | raw :: rest, claims =>
      let line := pyStripChars raw
      if line.isEmpty then extractClaimGo max_claims rest claims
      else if "#".data.isPrefixOf line || "```".data.isPrefixOf line then
        extractClaimGo max_claims rest claims
      else
        let claims' :=
          if claimPatternMatches line then claims ++ [line.take 220] else claims
        if max_claims ≤ claims'.length then claims'
        else extractClaimGo max_claims rest claims'

/-- `extract_claim_lines(body)` with the default `max_claims=8`. -/
def extract_claim_lines (body : String) : List String :=
  (extractClaimGo 8 (pySplitlines body.data) []).map String.mk

/-! ## JSON parsing: `json.loads` model and `extract_json_from_text`
(lines 559-574)

`json.loads` is embedded as a recursive-descent parser over the JSON
grammar; a failure is one of the `json.JSONDecodeError` varieties the
CPython scanner raises (positions omitted).  The non-standard
`NaN`/`Infinity` literals are not modelled. -/

/-- A parsed JSON structure.  Number values keep their lexeme: no claim
inspects numeric values of parsed provider text. -/
inductive JValue
  | null
  | bool (b : Bool)
  | num (lexeme : String)
  | str (s : String)
  | arr (items : List JValue)
  | obj (fields : List (String × JValue))

/-- The `json.JSONDecodeError` varieties (message positions omitted);
`outOfFuel` stands for the interpreter recursion limit on deeply nested
input. -/
inductive JsonErr
  | expectingValue            -- "Expecting value"
  | expectingPropertyName     -- "Expecting property name enclosed in double quotes"
  | expectingColonDelimiter   -- "Expecting ':' delimiter"
  | expectingCommaDelimiter   -- "Expecting ',' delimiter"
  | unterminatedString        -- "Unterminated string starting at"
  | invalidEscape             -- "Invalid \\escape" / "Invalid \\uXXXX escape"
  | invalidControlCharacter   -- "Invalid control character"
  | extraData                 -- "Extra data"
  | outOfFuel                 -- RecursionError
deriving DecidableEq, Repr

/-- JSON inter-token whitespace. -/
def jsonSkipWs (cs : List Char) : List Char :=
  cs.dropWhile (fun c => c = ' ' || c = '\t' || c = '\n' || c = '\r')

/-- Hex digit value. -/
def hexVal (c : Char) : Option Nat :=
  if '0' ≤ c ∧ c ≤ '9' then some (c.toNat - '0'.toNat)
  else if 'a' ≤ c ∧ c ≤ 'f' then some (c.toNat - 'a'.toNat + 10)
  else if 'A' ≤ c ∧ c ≤ 'F' then some (c.toNat - 'A'.toNat + 10)
  else none

/-- JSON string body parser, fuelled (every step consumes input, so the
fuel `cs.length + 1` its callers pass is never exhausted); the opening
quote has been consumed. -/
def parseJsonStringGo : Nat → List Char → Except JsonErr (List Char × List Char)
  | 0, _ => .error .unterminatedString
  | _ + 1, [] => .error .unterminatedString
  | _ + 1, '"' :: rest => .ok ([], rest)
  | fuel + 1, '\\' :: rest =>
      (match rest with
       | [] => Except.error .unterminatedString
       | 'u' :: rest' =>
           match (rest'.take 4).mapM hexVal with
           | some ds =>
               if ds.length = 4 then
                 let n := ds.foldl (fun a d => 16 * a + d) 0
                 (parseJsonStringGo fuel (rest'.drop 4)).map
                   (fun p => ((Char.ofNat n) :: p.1, p.2))
               else Except.error .invalidEscape
           | none => Except.error .invalidEscape
       | e :: rest' =>
           let c? : Option Char :=
             if e = '"' then some '"'
             else if e = '\\' then some '\\'
             else if e = '/' then some '/'
             else if e = 'b' then some '\x08'
             else if e = 'f' then some '\x0c'
             else if e = 'n' then some '\n'
             else if e = 'r' then some '\r'
             else if e = 't' then some '\t'
             else none
           match c? with
           | some c => (parseJsonStringGo fuel rest').map (fun p => (c :: p.1, p.2))
           | none => Except.error .invalidEscape)
  | fuel + 1, c :: rest =>
      if c.toNat < 0x20 then .error .invalidControlCharacter
      else (parseJsonStringGo fuel rest).map (fun p => (c :: p.1, p.2))

/-- JSON string body parser with enough fuel. -/
def parseJsonString (cs : List Char) : Except JsonErr (List Char × List Char) :=
  parseJsonStringGo (cs.length + 1) cs

/-- JSON number lexer, per the CPython scanner regex
`(-?(?:0|[1-9]\d*))(\.\d+)?([eE][-+]?\d+)?`; returns the maximal lexeme
and the remaining input, or `Option.none` when no number starts here. -/
def parseJsonNumber (cs : List Char) : Option (String × List Char) :=
  let signAndRest : List Char × List Char :=
    match cs with
    | '-' :: r => (['-'], r)
    | _ => ([], cs)
  let sign := signAndRest.1
  let cs1 := signAndRest.2
  let intPart? : Option (List Char × List Char) :=
    match cs1 with
    | '0' :: r => some (['0'], r)
    | c :: r =>
        if '1' ≤ c ∧ c ≤ '9' then
          some (c :: r.takeWhile Char.isDigit, r.dropWhile Char.isDigit)
        else none
    | [] => none
  match intPart? with
  | none => none
  | some (ip, cs2) =>
      let fracAndRest : List Char × List Char :=
        match cs2 with
        | '.' :: r =>
            let ds := r.takeWhile Char.isDigit
            if ds.isEmpty then ([], cs2) else ('.' :: ds, r.dropWhile Char.isDigit)
        | _ => ([], cs2)
      let cs3 := fracAndRest.2
      let expAndRest : List Char × List Char :=
        match cs3 with
        | e :: r =>
            if e = 'e' ∨ e = 'E' then
              let signedRest : List Char × List Char :=
                match r with
                | c :: rr => if c = '+' ∨ c = '-' then ([c], rr) else ([], r)
                | [] => ([], r)
              let ds := signedRest.2.takeWhile Char.isDigit
              if ds.isEmpty then ([], cs3)
              else (e :: (signedRest.1 ++ ds), signedRest.2.dropWhile Char.isDigit)
            else ([], cs3)
        | [] => ([], cs3)
      some (String.mk (sign ++ ip ++ fracAndRest.1 ++ expAndRest.1), expAndRest.2)

/-- Object-member loop, parameterized by the parser `pv` used for member
values.  Its own fuel counts members; each member consumes input, so the
fuel its caller passes is never exhausted.  Positioned right after the
opening quote of a property name. -/
def parseJsonMembersGo (pv : List Char → Except JsonErr (JValue × List Char)) :
    Nat → List Char → List (String × JValue) → Except JsonErr (JValue × List Char)
  | 0, _, _ => .error .outOfFuel
  | fuel + 1, cs, acc =>
      match parseJsonString cs with
      | .error e => .error e
      | .ok (key, r1) =>
          match jsonSkipWs r1 with
          | ':' :: r3 =>
              (match pv (jsonSkipWs r3) with
               | .error e => Except.error e
               | .ok (v, r4) =>
                   let acc' := acc ++ [(String.mk key, v)]
                   match jsonSkipWs r4 with
                   | '\x7d' :: r6 => Except.ok (.obj acc', r6)
                   | ',' :: r6 =>
                       (match jsonSkipWs r6 with
                        | '"' :: r8 => parseJsonMembersGo pv fuel r8 acc'
                        | _ => Except.error .expectingPropertyName)
                   | _ => Except.error .expectingCommaDelimiter)
          | _ => .error .expectingColonDelimiter

/-- Array-element loop, parameterized by the parser `pv` used for the
elements; positioned at the first element. -/
def parseJsonElementsGo (pv : List Char → Except JsonErr (JValue × List Char)) :
    Nat → List Char → List JValue → Except JsonErr (JValue × List Char)
  | 0, _, _ => .error .outOfFuel
  | fuel + 1, cs, acc =>
      match pv cs with
      | .error e => .error e
      | .ok (v, r1) =>
          let acc' := acc ++ [v]
          match jsonSkipWs r1 with
          | ']' :: r3 => Except.ok (.arr acc', r3)
          | ',' :: r3 => parseJsonElementsGo pv fuel (jsonSkipWs r3) acc'
          | _ => Except.error .expectingCommaDelimiter

/-- JSON value parser.  The fuel bounds the nesting depth (each level
consumes at least one character, so the fuel `json_loads` passes is
never exhausted); written with `Nat.rec` so container contents are
parsed by the parser one fuel level down. -/
def parseJsonValue (fuel : Nat) : List Char → Except JsonErr (JValue × List Char) :=
  Nat.rec (motive := fun _ => List Char → Except JsonErr (JValue × List Char))
    (fun _ => .error .outOfFuel)
    (fun _ ih cs =>
      match cs with
      | [] => .error .expectingValue
      | '"' :: rest => (parseJsonString rest).map (fun p => (.str (String.mk p.1), p.2))
      | '\x7b' :: rest =>
          (match jsonSkipWs rest with
           | '\x7d' :: r2 => Except.ok (.obj [], r2)
           | '"' :: r2 => parseJsonMembersGo ih (r2.length + 1) r2 []
           | _ => Except.error .expectingPropertyName)
      | '[' :: rest =>
          (match jsonSkipWs rest with
           | ']' :: r2 => Except.ok (.arr [], r2)
           | r2 => parseJsonElementsGo ih (r2.length + 1) r2 [])
      | 't' :: _ =>
          if "true".data.isPrefixOf cs then .ok (.bool true, cs.drop 4)
          else .error .expectingValue
      | 'f' :: _ =>
          if "false".data.isPrefixOf cs then .ok (.bool false, cs.drop 5)
          else .error .expectingValue
      | 'n' :: _ =>
          if "null".data.isPrefixOf cs then .ok (.null, cs.drop 4)
          else .error .expectingValue
      | _ =>
          match parseJsonNumber cs with
          | some (lex, rest) => .ok (.num lex, rest)
          | none => .error .expectingValue)
    fuel

/-- `json.loads(s)`: leading/trailing whitespace allowed, anything after
the value is "Extra data".  The fuel bounds the parse-tree depth and is
generous enough for every input (each level consumes input). -/
def json_loads (s : String) : Except JsonErr JValue :=
  match parseJsonValue (2 * s.data.length + 8) (jsonSkipWs s.data) with
  | .error e => .error e
  | .ok (v, rest) => if (jsonSkipWs rest).isEmpty then .ok v else .error .extraData

/-- The two ways `extract_json_from_text` can fail: an uncaught
`json.JSONDecodeError` from its final `json.loads` call, or its own
`ValueError("provider response did not contain valid JSON")`. -/
inductive ExtractErr
  | parseError (e : JsonErr)
  | noValidJson
deriving DecidableEq, Repr

/-- Regex `\s` (ASCII part). -/
def isRegexSpace (c : Char) : Bool :=
  c = ' ' || c = '\t' || c = '\n' || c = '\r' || c = '\x0b' || c = '\x0c'

/-- Lines 561-564: `text.strip()` followed by the two fence-stripping
`re.sub` calls (`^```[a-zA-Z]*\s*` and `\s*```$`), which only run when
the stripped text starts with a fence. -/
def cleanedOf (text : String) : List Char :=
  let cleaned := pyStripChars text.data
  if "```".data.isPrefixOf cleaned then
    let c1 := ((cleaned.drop 3).dropWhile Char.isAlpha).dropWhile isRegexSpace
    let r := c1.reverse
    if "```".data.isPrefixOf r then ((r.drop 3).dropWhile isRegexSpace).reverse
    else c1
  else cleaned

/-- `cleaned.find("{")`: `Option.none` models `-1`. -/
def braceStart (cs : List Char) : Option Nat := cs.findIdx? (fun c => c = '\x7b')

/-- `cleaned.rfind("}")`: `Option.none` models `-1`. -/
def braceEnd (cs : List Char) : Option Nat :=
  (cs.reverse.findIdx? (fun c => c = '\x7d')).map (fun i => cs.length - 1 - i)

/-- `extract_json_from_text(text)` (lines 559-574).  The first
`json.loads` failure is swallowed (`except json.JSONDecodeError: pass`);
the second one, on `cleaned[start:end+1]`, is NOT wrapped and surfaces
as `ExtractErr.parseError`. -/
def extract_json_from_text (text : String) : Except ExtractErr JValue :=
  let cleaned := cleanedOf text
  match json_loads (String.mk cleaned) with
  | .ok v => .ok v
  | .error _ =>
      match braceStart cleaned, braceEnd cleaned with
      | some s, some e =>
          if s < e then
            match json_loads (String.mk ((cleaned.drop s).take (e + 1 - s))) with
            | .ok v => .ok v
            | .error err => .error (.parseError err)
          else .error .noValidJson
      | _, _ => .error .noValidJson

/-! ## Judge Output model (the dict shapes read by lines 653-735)

A judge output is a parsed JSON dict.  Only the shapes the validator and
aggregator can actually read are modelled: `Option` fields model
possibly-absent keys (a present value of a non-string type behaves, for
every membership test the code performs, like a string outside the
enumeration, so string-typed fields cover those cases); `ConfVal` keeps
the number/non-number distinction `isinstance` checks rely on, with
rationals standing in for floats. -/

/-- A `confidence` entry: absent, a number, or a non-numeric value. -/
inductive ConfVal
  | missing
  | num (q : ℚ)
  | nonnum
deriving DecidableEq, Repr

/-- The `global` block.  The validator reads only `max_severity`. -/
structure GlobalBlock where
  overall : Option String
  summary : Option String
  max_severity : Option String
  blocking_reasons_present : Bool
deriving DecidableEq, Repr

/-- `model_output.get("global", {})` default: the empty dict. -/
def emptyGlobal : GlobalBlock :=
  { overall := none, summary := none, max_severity := none,
    blocking_reasons_present := false }

/-- One entry of `documents`. -/
structure DocEntry where
  path : Option String
  decision : Option String
  intent_type : Option String
  severity : Option String
  confidence : ConfVal
  reason : Option String
  required_actions_present : Bool
  frontmatter_patch_present : Bool
  similar_docs_present : Bool
deriving DecidableEq, Repr

/-- One entry of `cross_doc_conflicts`. -/
structure ConflictEntry where
  docs_present : Bool
  severity : Option String
  issue : Option String
  recommended_source_of_truth : Option String
deriving DecidableEq, Repr

/-- A candidate judge output; `Option.none` on a field models an absent
top-level key, `in_scope_issues` records only key presence. -/
structure ModelOutput where
  global : Option GlobalBlock
  documents : Option (List DocEntry)
  cross_doc_conflicts : Option (List ConflictEntry)
  in_scope_issues : Bool
deriving DecidableEq, Repr

/-! ## Judge Output Validator: `validate_model_output` (lines 653-684) -/

/-- `ALLOWED_DECISIONS` (line 37). -/
def ALLOWED_DECISIONS : List String := ["keep", "revise", "archive", "delete"]

/-- `ALLOWED_INTENT_TYPES` (lines 38-47). -/
def ALLOWED_INTENT_TYPES : List String :=
  ["northstar", "spec", "implementation", "research", "history",
   "playbook", "task", "reference"]

/-- Membership of a possibly-missing value in an enumeration
(`None in s` is false). -/
def optMem (v : Option String) (s : List String) : Bool :=
  match v with
  | none => false
  | some x => s.contains x

/-- `x in ALLOWED_SEVERITIES` for a possibly-missing value
(`ALLOWED_SEVERITIES = set(SEVERITY_ORDER.keys())`, line 36). -/
def isAllowedSeverity (v : Option String) : Bool :=
  match v with
  | none => false
  | some x => (SEVERITY_ORDER x).isSome

/-- Python f-string rendering of a possibly-missing string value. -/
def fmtOpt (v : Option String) : String :=
  match v with
  | none => "None"
  | some s => s

/-- Python f-string rendering of a confidence value (the numeric
rendering is abstracted; no claim reads these messages). -/
def fmtConf (v : ConfVal) : String :=
  match v with
  | .missing => "None"
  | .num q => toString q
  | .nonnum => "non-numeric"

/-- The four missing-top-level-key checks (lines 656-658). -/
def missingKeyErrors (m : ModelOutput) : List String :=
  (if m.global.isNone then ["missing top-level key: global"] else []) ++
  (if m.documents.isNone then ["missing top-level key: documents"] else []) ++
  (if m.cross_doc_conflicts.isNone then ["missing top-level key: cross_doc_conflicts"] else []) ++
  (if ¬ m.in_scope_issues then ["missing top-level key: in_scope_issues"] else [])

/-- The `global.max_severity` check (lines 660-663). -/
def globalSeverityErrors (m : ModelOutput) : List String :=
  let max_severity := (m.global.getD emptyGlobal).max_severity
  if isAllowedSeverity max_severity then []
  else ["invalid global.max_severity: " ++ fmtOpt max_severity]

/-- The per-document checks for one entry of `documents`
(lines 665-677), at 1-based index `idx`. -/
def docEntryErrors (idx : Nat) (d : DocEntry) : List String :=
  (if isAllowedSeverity d.severity then []
   else ["documents[" ++ toString idx ++ "] invalid severity: " ++ fmtOpt d.severity]) ++
  (if optMem d.decision ALLOWED_DECISIONS then []
   else ["documents[" ++ toString idx ++ "] invalid decision: " ++ fmtOpt d.decision]) ++
  (if optMem d.intent_type ALLOWED_INTENT_TYPES then []
   else ["documents[" ++ toString idx ++ "] invalid intent_type: " ++ fmtOpt d.intent_type]) ++
  (match d.confidence with
   | .num q =>
       if q < 0 ∨ q > 1 then
         ["documents[" ++ toString idx ++ "] invalid confidence: " ++ fmtConf d.confidence]
       else []
   | c => ["documents[" ++ toString idx ++ "] invalid confidence: " ++ fmtConf c])

/-- The loop `for idx, doc in enumerate(..., start=1)`. -/
def docErrorsFrom : Nat → List DocEntry → List String
  | _, [] => []
  | idx, d :: ds => docEntryErrors idx d ++ docErrorsFrom (idx + 1) ds

/-- The per-conflict severity check (lines 679-682). -/
def conflictErrorsFrom : Nat → List ConflictEntry → List String
  | _, [] => []
  | idx, c :: cs =>
      (if isAllowedSeverity c.severity then []
       else ["cross_doc_conflicts[" ++ toString idx ++ "] invalid severity: " ++
             fmtOpt c.severity]) ++
      conflictErrorsFrom (idx + 1) cs

/-- `validate_model_output(model_output)`: the full error list, in the
order the Python appends. -/
def validate_model_output (m : ModelOutput) : List String :=
  missingKeyErrors m ++ globalSeverityErrors m ++
    docErrorsFrom 1 (m.documents.getD []) ++
    conflictErrorsFrom 1 (m.cross_doc_conflicts.getD [])

/-! ## Severity Aggregator (lines 717-735) and gate tail of `main`
(lines 897-912) -/

/-- `doc.get("confidence", 0.0)` followed by the `isinstance` test: an
absent key defaults to the number `0.0`, a non-numeric value fails the
test. -/
def confAsNumber (c : ConfVal) : Option ℚ :=
  match c with
  | .missing => some 0
  | .num q => some q
  | .nonnum => none

/-- The document branch of the aggregation loop (lines 719-724): the
severity is appended iff it is a severity key, the confidence is a
number, and it meets the floor. -/
def docSeenSeverity (min_confidence : ℚ) (d : DocEntry) : Option String :=
  let severity := d.severity.getD "none"
  match confAsNumber d.confidence with
  | some confidence =>
      if (SEVERITY_ORDER severity).isSome && min_confidence ≤ confidence then
        some severity
      else none
  | none => none

/-- The conflict branch (lines 727-730): no confidence involved. -/
def conflictSeenSeverity (c : ConflictEntry) : Option String :=
  let severity := c.severity.getD "none"
  if (SEVERITY_ORDER severity).isSome then some severity else none

/-- `max(seen, key=lambda x: SEVERITY_ORDER[x])` on a non-empty list:
Python `max` keeps the first element whose key is maximal.  The `[]`
case is unreachable (the caller guards on emptiness). -/
def pyMaxBySeverity : List String → String
  | [] => "none"
  | s :: rest => rest.foldl (fun acc x => if sevRankD acc < sevRankD x then x else acc) s

/-- `max_observed_severity_with_confidence(model_output, min_confidence)`
(lines 717-735). -/
def max_observed_severity_with_confidence (m : ModelOutput) (min_confidence : ℚ) :
    String :=
  let seen :=
    ((m.global.getD emptyGlobal).max_severity.getD "none") ::
      ((m.documents.getD []).filterMap (docSeenSeverity min_confidence) ++
       (m.cross_doc_conflicts.getD []).filterMap conflictSeenSeverity)
  let seen := seen.filter (fun s => (SEVERITY_ORDER s).isSome)
  if seen.isEmpty then "none" else pyMaxBySeverity seen

/-- Outcome of the result-evaluation tail of `main` (lines 897-912). -/
inductive GateOutcome
  | invalidOutput (errors : List String)
  | blocked (worst : String)
  | passed (worst : String)
deriving DecidableEq, Repr

/-- Lines 897-912 of `main`: validation errors abort (exit 1) before
any aggregation; otherwise the aggregate is computed once and gated by
`should_fail`.  `Option.none` propagates the `KeyError` of `should_fail`
on an invalid threshold. -/
def evaluate_llm_result (m : ModelOutput) (min_confidence : ℚ) (fail_on : String) :
    Option GateOutcome :=
  let validation_errors := validate_model_output m
  if validation_errors ≠ [] then some (.invalidOutput validation_errors)
  else
    let worst := max_observed_severity_with_confidence m min_confidence
    match should_fail worst fail_on with
    | none => none
    | some true => some (.blocked worst)
    | some false => some (.passed worst)

/-! ## Output schema `required` lists (`build_output_schema`, lines 415-500) -/

/-- `required` of the top-level schema object (line 418). -/
def schemaTopRequired : List String :=
  ["global", "documents", "cross_doc_conflicts", "in_scope_issues"]

/-- `required` of the `global` schema object (line 423). -/
def schemaGlobalRequired : List String :=
  ["overall", "summary", "max_severity", "blocking_reasons"]

/-- `required` of a `documents` item (lines 439-449). -/
def schemaDocumentRequired : List String :=
  ["path", "decision", "intent_type", "severity", "confidence", "reason",
   "required_actions", "frontmatter_patch", "similar_docs"]

/-- `required` of a `cross_doc_conflicts` item (lines 480-485). -/
def schemaConflictRequired : List String :=
  ["docs", "severity", "issue", "recommended_source_of_truth"]

/-! ## Spec-side severity order and judge aggregate

These definitions follow the WORDS of the spec (§3 "Severity: ordered
enumeration none < minor < major < critical" and §4.7 "Judge aggregate"),
for comparison against the code-side `max_observed_severity_with_confidence`. -/

/-- The spec's ordered severity enumeration. -/
inductive Sev
  | none
  | minor
  | major
  | critical
deriving DecidableEq, Repr

/-- The rank of a severity in the spec's total order. -/
def Sev.rank : Sev → Nat
  | .none => 0
  | .minor => 1
  | .major => 2
  | .critical => 3

/-- The name of a severity. -/
def Sev.toStr : Sev → String
  | .none => "none"
  | .minor => "minor"
  | .major => "major"
  | .critical => "critical"

/-- Reading a severity name; `Option.none` for anything outside the
enumeration. -/
def parseSev (s : String) : Option Sev :=
  if s = "none" then some .none
  else if s = "minor" then some .minor
  else if s = "major" then some .major
  else if s = "critical" then some .critical
  else Option.none

/-- The larger of two severities under the spec's order. -/
def Sev.maxS (a b : Sev) : Sev := if a.rank < b.rank then b else a

/-- The judge aggregate as the spec words it (§4.7): the maximum, under
the severity order, of `global.max_severity`, every cross-document
conflict severity (confidence-independent), and every per-document
severity whose confidence meets or exceeds the floor. -/
def judgeAggregateSpec (m : ModelOutput) (floor : ℚ) : Sev :=
  let g := (parseSev ((m.global.getD emptyGlobal).max_severity.getD "none")).getD .none
  let docSevs := (m.documents.getD []).filterMap
    (fun d =>
      match d.confidence with
      | .num q => if floor ≤ q then parseSev (d.severity.getD "none") else Option.none
      | _ => Option.none)
  let conflictSevs := (m.cross_doc_conflicts.getD []).filterMap
    (fun c => parseSev (c.severity.getD "none"))
  (docSevs ++ conflictSevs).foldl Sev.maxS g

/-! ## Support predicates used in theorem statements -/

/-- All four per-document validator checks pass (lines 665-677 add no
error for this entry). -/
def docEntryOk (d : DocEntry) : Bool :=
  isAllowedSeverity d.severity &&
    optMem d.decision ALLOWED_DECISIONS &&
    optMem d.intent_type ALLOWED_INTENT_TYPES &&
    (match d.confidence with
     | .num q => decide (0 ≤ q ∧ q ≤ 1)
     | _ => false)

/-- `start != -1 and end != -1 and end > start` (line 572). -/
def hasBracePair (cs : List Char) : Bool :=
  match braceStart cs, braceEnd cs with
  | some s, some e => decide (s < e)
  | _, _ => false

/-- `cleaned[start : end + 1]` (line 573); `[]` when no brace pair. -/
def braceSlice (cs : List Char) : List Char :=
  match braceStart cs, braceEnd cs with
  | some s, some e => (cs.drop s).take (e + 1 - s)
  | _, _ => []

/-! # Theorems -/

/-- Claim C1: for severities and thresholds drawn from
`{none, minor, major, critical}`, `should_fail(aggregate, threshold)`
returns true iff the threshold is not "none" and the aggregate's rank
(none=0 < minor=1 < major=2 < critical=3) is at least the threshold's
rank; for a fixed threshold it is monotonic non-decreasing in the
aggregate's rank, and a threshold of "none" never fails. -/
theorem claim_C1_should_fail_rank_gate :
    ∀ worst ∈ SEVERITY_KEYS, ∀ threshold ∈ SEVERITY_KEYS,
      (should_fail worst threshold = some true ↔
        threshold ≠ "none" ∧ sevRankD threshold ≤ sevRankD worst) ∧
      should_fail worst "none" = some false ∧
      ∀ worst2 ∈ SEVERITY_KEYS, sevRankD worst ≤ sevRankD worst2 →
        should_fail worst threshold = some true →
        should_fail worst2 threshold = some true := by
  decide

/-- Witness for C1 at aggregate "major", threshold "minor" (and the
never-fail clause at threshold "none"). -/
theorem claim_C1_should_fail_rank_gate_witness :
    should_fail "major" "minor" = some true ∧ should_fail "major" "none" = some false := by
  have h := claim_C1_should_fail_rank_gate "major" (by decide) "minor" (by decide)
  exact ⟨h.1.mpr (by decide), h.2.1⟩

/-- Both no-header branches of the Header Extractor return the empty
mapping and the unchanged input. -/
theorem parse_frontmatter_no_header (text : String)
    (h : "---\n".data.isPrefixOf text.data = false ∨
         frontmatterClosing text.data = Option.none) :
    parse_frontmatter text = ([], text) := by
  unfold parse_frontmatter
  rcases h with h | h
  · rw [if_pos]
    simp [h]
  · by_cases hp : "---\n".data.isPrefixOf text.data
    · rw [if_neg (by simp [hp]), h]
    · rw [if_pos (by simp [hp])]

/-- Claim C5: if the text does not begin with the opening marker
`"---\n"`, or begins with it but has no closing marker `"\n---"` at
position ≥ 4, the Header Extractor returns the empty mapping together
with the original text unchanged (it fails open, never errors). -/
theorem claim_C5_header_extractor_fails_open (text : String) :
    ("---\n".data.isPrefixOf text.data = false → parse_frontmatter text = ([], text)) ∧
    ("---\n".data.isPrefixOf text.data = true →
      frontmatterClosing text.data = Option.none → parse_frontmatter text = ([], text)) :=
  ⟨fun h => parse_frontmatter_no_header text (Or.inl h),
   fun _ h => parse_frontmatter_no_header text (Or.inr h)⟩

/-- Witness for C5: a text with no opening marker, and a text whose
opening marker is never closed. -/
theorem claim_C5_header_extractor_fails_open_witness :
    parse_frontmatter "hello world" = ([], "hello world") ∧
    parse_frontmatter "---\ntitle: x" = ([], "---\ntitle: x") :=
  ⟨(claim_C5_header_extractor_fails_open "hello world").1 (by decide),
   (claim_C5_header_extractor_fails_open "---\ntitle: x").2 (by decide) (by decide)⟩

/-- Claim C6 is false: on `"---\nA\n---\n---\nkey: v\n---\n"` the first
pass strips only the first header block (whose single line `A` yields no
entries), leaving a body that itself begins with a complete header
block, so the second pass returns the non-empty mapping `{key: v}`. -/
theorem claim_C6_counterexample :
    (parse_frontmatter ((parse_frontmatter "---\nA\n---\n---\nkey: v\n---\n").2)).1 =
      [("key", "v")] ∧
    (parse_frontmatter ((parse_frontmatter "---\nA\n---\n---\nkey: v\n---\n").2)).1 ≠ [] := by
  constructor
  · rfl
  · decide

/-- Claim C6 amended: re-running the Header Extractor on its own
body_text output detects no header and returns the empty mapping (with
the body unchanged) whenever that body does not itself begin with an
opening marker followed by a closing marker; when the original text
contains back-to-back header blocks the body can begin with a new
header block and the second pass extracts it. -/
theorem claim_C6_amended_second_pass (text : String)
    (h : "---\n".data.isPrefixOf (parse_frontmatter text).2.data = false ∨
         frontmatterClosing (parse_frontmatter text).2.data = Option.none) :
    parse_frontmatter ((parse_frontmatter text).2) = ([], (parse_frontmatter text).2) :=
  parse_frontmatter_no_header _ h

/-- Witness for the amended C6 on a text with a single header block. -/
theorem claim_C6_amended_second_pass_witness :
    parse_frontmatter ((parse_frontmatter "---\nk: v\n---\nbody text").2) =
      ([], (parse_frontmatter "---\nk: v\n---\nbody text").2) :=
  claim_C6_amended_second_pass "---\nk: v\n---\nbody text" (Or.inl (by decide))

/-- Claim C3: for a document whose normalized doc_type has a policy
entry, a path matching a preferred glob yields `ok`/`none` (the
preferred check runs first, so this holds even when an allowed glob
also matches); otherwise a path matching an allowed glob yields
`placement-drift`/`minor`; otherwise `placement-invalid`/`major`. -/
theorem claim_C3_placement_tiers (path : String) (frontmatter : List (String × String))
    (policy : PathPolicy)
    (hraw : raw_doc_type_of frontmatter ≠ "")
    (hpol : DOC_TYPE_PATH_POLICY (normalize_doc_type (raw_doc_type_of frontmatter)) =
      some policy) :
    (path_matches path policy.preferred = true →
      evaluate_path_policy path frontmatter =
        { status := "ok", severity := "none",
          raw_doc_type := raw_doc_type_of frontmatter,
          normalized_doc_type := normalize_doc_type (raw_doc_type_of frontmatter),
          reason := "path matches preferred placement policy",
          preferred_paths := policy.preferred, allowed_paths := policy.allowed }) ∧
    (path_matches path policy.preferred = false →
      path_matches path policy.allowed = true →
      evaluate_path_policy path frontmatter =
        { status := "placement-drift", severity := "minor",
          raw_doc_type := raw_doc_type_of frontmatter,
          normalized_doc_type := normalize_doc_type (raw_doc_type_of frontmatter),
          reason := "path is allowed but not preferred for this doc_type",
          preferred_paths := policy.preferred, allowed_paths := policy.allowed }) ∧
    (path_matches path policy.preferred = false →
      path_matches path policy.allowed = false →
      evaluate_path_policy path frontmatter =
        { status := "placement-invalid", severity := "major",
          raw_doc_type := raw_doc_type_of frontmatter,
          normalized_doc_type := normalize_doc_type (raw_doc_type_of frontmatter),
          reason := "path does not match preferred or allowed placement policy",
          preferred_paths := policy.preferred, allowed_paths := policy.allowed }) := by
  refine ⟨fun hp => ?_, fun hp ha => ?_, fun hp ha => ?_⟩ <;>
    simp only [evaluate_path_policy, if_neg hraw, hpol] <;>
    simp [hp]
  · simp [ha]
  · simp [ha]

/-- Witness for C3 with doc_type `plan`: `docs/plans/x.md` is preferred,
`docs/research/y.md` only allowed, `docs/random/x.md` neither. -/
theorem claim_C3_placement_tiers_witness :
    (evaluate_path_policy "docs/plans/x.md" [("doc_type", "plan")]).status = "ok" ∧
    (evaluate_path_policy "docs/research/y.md" [("doc_type", "plan")]).status =
      "placement-drift" ∧
    (evaluate_path_policy "docs/random/x.md" [("doc_type", "plan")]).status =
      "placement-invalid" := by
  have h1 := claim_C3_placement_tiers "docs/plans/x.md" [("doc_type", "plan")]
    ⟨["docs/plans/**", "docs/tasks/**", "docs/issues/**"],
     ["docs/research/**", "docs/archive/plans/**", "docs/domains/**"]⟩
    (by decide) (by decide)
  have h2 := claim_C3_placement_tiers "docs/research/y.md" [("doc_type", "plan")]
    ⟨["docs/plans/**", "docs/tasks/**", "docs/issues/**"],
     ["docs/research/**", "docs/archive/plans/**", "docs/domains/**"]⟩
    (by decide) (by decide)
  have h3 := claim_C3_placement_tiers "docs/random/x.md" [("doc_type", "plan")]
    ⟨["docs/plans/**", "docs/tasks/**", "docs/issues/**"],
     ["docs/research/**", "docs/archive/plans/**", "docs/domains/**"]⟩
    (by decide) (by decide)
  refine ⟨?_, ?_, ?_⟩
  · rw [h1.1 (by decide)]
  · rw [h2.2.1 (by decide) (by decide)]
  · rw [h3.2.2 (by decide) (by decide)]

/-- Claim C4: a missing or blank (after trimming) doc_type yields
`missing-doc-type`/`major`; a normalized doc_type with no policy entry
yields `unknown-doc-type`/`major`; both results are independent of the
path. -/
theorem claim_C4_missing_and_unknown_doc_type (path path2 : String)
    (frontmatter : List (String × String)) :
    (raw_doc_type_of frontmatter = "" →
      evaluate_path_policy path frontmatter =
        { status := "missing-doc-type", severity := "major",
          raw_doc_type := "", normalized_doc_type := "",
          reason := "frontmatter doc_type is missing",
          preferred_paths := [], allowed_paths := [] }) ∧
    (raw_doc_type_of frontmatter ≠ "" →
      DOC_TYPE_PATH_POLICY (normalize_doc_type (raw_doc_type_of frontmatter)) =
        Option.none →
      evaluate_path_policy path frontmatter =
        { status := "unknown-doc-type", severity := "major",
          raw_doc_type := raw_doc_type_of frontmatter,
          normalized_doc_type := normalize_doc_type (raw_doc_type_of frontmatter),
          reason := "doc_type \x27" ++ raw_doc_type_of frontmatter ++
            "\x27 is not recognized by policy",
          preferred_paths := [], allowed_paths := [] }) ∧
    ((raw_doc_type_of frontmatter = "" ∨
        DOC_TYPE_PATH_POLICY (normalize_doc_type (raw_doc_type_of frontmatter)) =
          Option.none) →
      evaluate_path_policy path frontmatter = evaluate_path_policy path2 frontmatter) := by
  refine ⟨fun h => ?_, fun h hnone => ?_, fun hcase => ?_⟩
  · simp [evaluate_path_policy, h]
  · simp [evaluate_path_policy, h, hnone]
  · rcases hcase with h | h
    · simp [evaluate_path_policy, h]
    · by_cases hr : raw_doc_type_of frontmatter = ""
      · simp [evaluate_path_policy, hr]
      · simp [evaluate_path_policy, hr, h]

/-- Witness for C4: an empty metadata mapping (missing doc_type) and an
unrecognized doc_type `bogus`, each evaluated at two different paths. -/
theorem claim_C4_missing_and_unknown_doc_type_witness :
    (evaluate_path_policy "docs/a.md" []).status = "missing-doc-type" ∧
    (evaluate_path_policy "docs/a.md" [("doc_type", "bogus")]).status =
      "unknown-doc-type" ∧
    evaluate_path_policy "docs/a.md" [("doc_type", "bogus")] =
      evaluate_path_policy "docs/b.md" [("doc_type", "bogus")] := by
  have h1 := claim_C4_missing_and_unknown_doc_type "docs/a.md" "docs/b.md" []
  have h2 := claim_C4_missing_and_unknown_doc_type "docs/a.md" "docs/b.md"
    [("doc_type", "bogus")]
  refine ⟨?_, ?_, h2.2.2 (Or.inr (by decide))⟩
  · rw [h1.1 (by decide)]
  · rw [h2.2.1 (by decide) (by decide)]

/-- The claim-extraction loop never grows its accumulator beyond the
cap of 8 when entered below the cap. -/
theorem extractClaimGo_length_le (lines : List (List Char)) :
    ∀ claims : List (List Char), claims.length < 8 →
      (extractClaimGo 8 lines claims).length ≤ 8 := by
  induction lines with
  | nil => intro claims h; simpa [extractClaimGo] using Nat.le_of_lt h
  | cons raw rest ih =>
      intro claims h
      simp only [extractClaimGo]
      split
      · exact ih claims h
      · split
        · exact ih claims h
        · split
          · split
            · simp only [List.length_append, List.length_cons, List.length_nil]
              omega
            · rename_i hfull
              refine ih _ ?_
              simp only [List.length_append, List.length_cons, List.length_nil] at hfull ⊢
              omega
          · split
            · omega
            · exact ih claims h

/-- Every line the claim-extraction loop adds comes from a stripped,
non-empty, non-heading, non-fence input line that matches the claim
regex, truncated to 220 characters. -/
theorem extractClaimGo_sound (lines : List (List Char)) :
    ∀ claims : List (List Char), ∀ l ∈ extractClaimGo 8 lines claims,
      l ∈ claims ∨
        ∃ raw ∈ lines,
          pyStripChars raw ≠ [] ∧
          "#".data.isPrefixOf (pyStripChars raw) = false ∧
          "```".data.isPrefixOf (pyStripChars raw) = false ∧
          claimPatternMatches (pyStripChars raw) = true ∧
          l = (pyStripChars raw).take 220 := by
  induction lines with
  | nil => intro claims l hl; exact Or.inl (by simpa [extractClaimGo] using hl)
  | cons raw rest ih =>
      intro claims l hl
      simp only [extractClaimGo] at hl
      have widen :
          (l ∈ claims ∨ ∃ r ∈ rest,
              pyStripChars r ≠ [] ∧
              "#".data.isPrefixOf (pyStripChars r) = false ∧
              "```".data.isPrefixOf (pyStripChars r) = false ∧
              claimPatternMatches (pyStripChars r) = true ∧
              l = (pyStripChars r).take 220) →
          l ∈ claims ∨ ∃ r ∈ raw :: rest,
              pyStripChars r ≠ [] ∧
              "#".data.isPrefixOf (pyStripChars r) = false ∧
              "```".data.isPrefixOf (pyStripChars r) = false ∧
              claimPatternMatches (pyStripChars r) = true ∧
              l = (pyStripChars r).take 220 := by
        rintro (h | ⟨r, hr, hrest⟩)
        · exact Or.inl h
        · exact Or.inr ⟨r, List.mem_cons_of_mem _ hr, hrest⟩
      split at hl
      · exact widen (ih claims l hl)
      · split at hl
        · exact widen (ih claims l hl)
        · rename_i hne hpre
          rw [Bool.not_eq_true, Bool.or_eq_false_iff] at hpre
          have hne' : pyStripChars raw ≠ [] := by
            simpa [List.isEmpty_iff] using hne
          split at hl
          · rename_i hmatch
            split at hl
            · rcases List.mem_append.mp hl with h | h
              · exact Or.inl h
              · exact Or.inr ⟨raw, List.mem_cons_self raw rest, hne',
                  hpre.1, hpre.2, hmatch, List.mem_singleton.mp h⟩
            · rcases ih _ l hl with h | h
              · rcases List.mem_append.mp h with h | h
                · exact Or.inl h
                · exact Or.inr ⟨raw, List.mem_cons_self raw rest, hne',
                    hpre.1, hpre.2, hmatch, List.mem_singleton.mp h⟩
              · exact widen (Or.inr h)
          · split at hl
            · exact Or.inl hl
            · exact widen (ih claims l hl)

/-- Claim C9: the Claim Extractor returns at most 8 lines, each at most
220 characters long and each the 220-character truncation of a
stripped, non-empty body line that is neither a heading line nor a
fenced-code line and matches the normative/lifecycle keyword pattern. -/
theorem claim_C9_claim_extractor_bounds (body : String) :
    (extract_claim_lines body).length ≤ 8 ∧
    ∀ l ∈ extract_claim_lines body,
      l.length ≤ 220 ∧
      ∃ raw ∈ pySplitlines body.data,
        pyStripChars raw ≠ [] ∧
        "#".data.isPrefixOf (pyStripChars raw) = false ∧
        "```".data.isPrefixOf (pyStripChars raw) = false ∧
        claimPatternMatches (pyStripChars raw) = true ∧
        l = String.mk ((pyStripChars raw).take 220) := by
  constructor
  · simpa [extract_claim_lines] using
      extractClaimGo_length_le (pySplitlines body.data) [] (by simp)
  · intro l hl
    simp only [extract_claim_lines, List.mem_map] at hl
    obtain ⟨c, hc, rfl⟩ := hl
    rcases extractClaimGo_sound (pySplitlines body.data) [] c hc with h | h
    · simp at h
    · obtain ⟨raw, hraw, h1, h2, h3, h4, rfl⟩ := h
      exact ⟨by simp [String.length], raw, hraw, h1, h2, h3, h4, rfl⟩

/-- Witness for C9 on a one-line body containing the keyword "must". -/
theorem claim_C9_claim_extractor_bounds_witness :
    ("It must work.").length ≤ 220 ∧
    ∃ raw ∈ pySplitlines ("It must work." : String).data,
      pyStripChars raw ≠ [] ∧
      "#".data.isPrefixOf (pyStripChars raw) = false ∧
      "```".data.isPrefixOf (pyStripChars raw) = false ∧
      claimPatternMatches (pyStripChars raw) = true ∧
      ("It must work." : String) = String.mk ((pyStripChars raw).take 220) :=
  (claim_C9_claim_extractor_bounds "It must work.").2 "It must work." (by decide)

/-- A document entry contributes no validation errors iff all four of
its checks pass. -/
theorem docEntryErrors_eq_nil_iff (idx : Nat) (d : DocEntry) :
    docEntryErrors idx d = [] ↔ docEntryOk d = true := by
  unfold docEntryErrors docEntryOk
  cases hc : d.confidence with
  | num q =>
      simp only [List.append_eq_nil]
      constructor
      · rintro ⟨⟨⟨h1, h2⟩, h3⟩, h4⟩
        split_ifs at h1 h2 h3 h4
        simp_all
      · intro h
        simp only [Bool.and_eq_true, decide_eq_true_eq] at h
        obtain ⟨⟨⟨h1, h2⟩, h3⟩, h4⟩ := h
        refine ⟨⟨⟨?_, ?_⟩, ?_⟩, ?_⟩ <;> simp_all
  | missing => simp [List.append_eq_nil]
  | nonnum => simp [List.append_eq_nil]

/-- The documents loop emits no errors iff every entry passes. -/
theorem docErrorsFrom_eq_nil_iff (idx : Nat) (ds : List DocEntry) :
    docErrorsFrom idx ds = [] ↔ ∀ d ∈ ds, docEntryOk d = true := by
  induction ds generalizing idx with
  | nil => simp [docErrorsFrom]
  | cons d ds ih =>
      simp [docErrorsFrom, List.append_eq_nil, docEntryErrors_eq_nil_iff, ih]

/-- The conflicts loop emits no errors iff every severity is valid. -/
theorem conflictErrorsFrom_eq_nil_iff (idx : Nat) (cs : List ConflictEntry) :
    conflictErrorsFrom idx cs = [] ↔ ∀ c ∈ cs, isAllowedSeverity c.severity = true := by
  induction cs generalizing idx with
  | nil => simp [conflictErrorsFrom]
  | cons c cs ih =>
      simp only [conflictErrorsFrom, List.append_eq_nil, List.mem_cons, ih]
      constructor
      · rintro ⟨h1, h2⟩ x (rfl | hx)
        · by_contra hb; simp [hb] at h1
        · exact h2 x hx
      · intro h
        refine ⟨by simp [h c (Or.inl rfl)], fun x hx => h x (Or.inr hx)⟩

/-- The missing-key checks emit no errors iff all four keys are present. -/
theorem missingKeyErrors_eq_nil_iff (m : ModelOutput) :
    missingKeyErrors m = [] ↔
      m.global.isSome = true ∧ m.documents.isSome = true ∧
        m.cross_doc_conflicts.isSome = true ∧ m.in_scope_issues = true := by
  unfold missingKeyErrors
  cases m.global <;> cases m.documents <;> cases m.cross_doc_conflicts <;>
    cases hi : m.in_scope_issues <;> simp [hi]

/-- The `global.max_severity` check emits no error iff the value is a
severity key. -/
theorem globalSeverityErrors_eq_nil_iff (m : ModelOutput) :
    globalSeverityErrors m = [] ↔
      isAllowedSeverity ((m.global.getD emptyGlobal).max_severity) = true := by
  unfold globalSeverityErrors
  dsimp only
  split_ifs with h <;> simp [h]

/-- The validator passes iff all four key-presence checks, the global
severity check, every document check and every conflict check pass. -/
theorem validate_eq_nil_iff (m : ModelOutput) :
    validate_model_output m = [] ↔
      (m.global.isSome = true ∧ m.documents.isSome = true ∧
        m.cross_doc_conflicts.isSome = true ∧ m.in_scope_issues = true) ∧
      isAllowedSeverity ((m.global.getD emptyGlobal).max_severity) = true ∧
      (∀ d ∈ m.documents.getD [], docEntryOk d = true) ∧
      (∀ c ∈ m.cross_doc_conflicts.getD [], isAllowedSeverity c.severity = true) := by
  unfold validate_model_output
  simp [List.append_eq_nil, missingKeyErrors_eq_nil_iff, globalSeverityErrors_eq_nil_iff,
    docErrorsFrom_eq_nil_iff, conflictErrorsFrom_eq_nil_iff, and_assoc]

/-- Claim C7: the validator returns the complete violation list (two
independently missing keys are both reported); when only the
`cross_doc_conflicts` key is missing and everything else is valid it
reports exactly that one violation, and the gate tail of `main` then
aborts with those errors for every confidence floor and threshold,
before any severity aggregation. -/
theorem claim_C7_validator_full_list_and_abort (m : ModelOutput) (g : GlobalBlock)
    (ds : List DocEntry)
    (hg : m.global = some g)
    (hsev : isAllowedSeverity g.max_severity = true)
    (hds : m.documents = some ds)
    (hdocs : ∀ d ∈ ds, docEntryOk d = true)
    (hin : m.in_scope_issues = true)
    (hconf : m.cross_doc_conflicts = Option.none) :
    validate_model_output m = ["missing top-level key: cross_doc_conflicts"] ∧
    (∀ (min_confidence : ℚ) (fail_on : String),
      evaluate_llm_result m min_confidence fail_on =
        some (GateOutcome.invalidOutput ["missing top-level key: cross_doc_conflicts"])) ∧
    validate_model_output { m with documents := Option.none } =
      ["missing top-level key: documents", "missing top-level key: cross_doc_conflicts"] := by
  have hdoc_nil : docErrorsFrom 1 ds = [] := (docErrorsFrom_eq_nil_iff 1 ds).mpr hdocs
  have hmain : validate_model_output m =
      ["missing top-level key: cross_doc_conflicts"] := by
    unfold validate_model_output missingKeyErrors globalSeverityErrors
    rw [hg, hds, hconf, hin]
    simp [hsev, hdoc_nil, conflictErrorsFrom]
  refine ⟨hmain, fun min_confidence fail_on => ?_, ?_⟩
  · unfold evaluate_llm_result
    rw [hmain]
    simp
  · unfold validate_model_output missingKeyErrors globalSeverityErrors
    simp [hg, hconf, hin, hsev, conflictErrorsFrom, docErrorsFrom]

/-- Witness for C7: a minimal otherwise-valid output missing only the
`cross_doc_conflicts` key. -/
theorem claim_C7_validator_full_list_and_abort_witness :
    validate_model_output
        ⟨some ⟨Option.none, Option.none, some "none", false⟩, some [],
          Option.none, true⟩ =
      ["missing top-level key: cross_doc_conflicts"] ∧
    evaluate_llm_result
        ⟨some ⟨Option.none, Option.none, some "none", false⟩, some [],
          Option.none, true⟩ (mkRat 4 5) "major" =
      some (GateOutcome.invalidOutput ["missing top-level key: cross_doc_conflicts"]) := by
  have h := claim_C7_validator_full_list_and_abort
    ⟨some ⟨Option.none, Option.none, some "none", false⟩, some [], Option.none, true⟩
    ⟨Option.none, Option.none, some "none", false⟩
    [] rfl (by decide) rfl (by simp) rfl rfl
  exact ⟨h.1, h.2.1 (mkRat 4 5) "major"⟩

/-- Claim C10: the validator is strictly weaker than the declared output
schema: it accepts (empty violation list) every output with the four
top-level keys, a valid `global.max_severity`, valid per-document
severity/decision/intent and numeric confidence in [0,1], and valid
conflict severities — regardless of the schema-required fields
(`global.overall/summary/blocking_reasons`, `documents[].path/reason/
required_actions/frontmatter_patch/similar_docs`, conflicts'
`docs/issue/recommended_source_of_truth`) being entirely absent, even
though the schema lists them as required. -/
theorem claim_C10_validator_weaker_than_schema (m : ModelOutput) (g : GlobalBlock)
    (ds : List DocEntry) (cs : List ConflictEntry)
    (hg : m.global = some g)
    (hsev : isAllowedSeverity g.max_severity = true)
    (hds : m.documents = some ds)
    (hdocs : ∀ d ∈ ds, docEntryOk d = true)
    (hcs : m.cross_doc_conflicts = some cs)
    (hcsev : ∀ c ∈ cs, isAllowedSeverity c.severity = true)
    (hin : m.in_scope_issues = true) :
    validate_model_output m = [] ∧
    ("overall" ∈ schemaGlobalRequired ∧ "summary" ∈ schemaGlobalRequired ∧
      "blocking_reasons" ∈ schemaGlobalRequired) ∧
    ("path" ∈ schemaDocumentRequired ∧ "reason" ∈ schemaDocumentRequired ∧
      "required_actions" ∈ schemaDocumentRequired ∧
      "frontmatter_patch" ∈ schemaDocumentRequired ∧
      "similar_docs" ∈ schemaDocumentRequired) ∧
    ("docs" ∈ schemaConflictRequired ∧ "issue" ∈ schemaConflictRequired ∧
      "recommended_source_of_truth" ∈ schemaConflictRequired) := by
  refine ⟨?_, by decide, by decide, by decide⟩
  refine (validate_eq_nil_iff m).mpr ⟨?_, ?_, ?_, ?_⟩
  · simp [hg, hds, hcs, hin]
  · simpa [hg] using hsev
  · simpa [hds] using hdocs
  · simpa [hcs] using hcsev

/-- Witness for C10: every schema-required field the validator does not
check is absent, yet the violation list is empty. -/
theorem claim_C10_validator_weaker_than_schema_witness :
    validate_model_output
        ⟨some ⟨Option.none, Option.none, some "minor", false⟩,
          some [⟨Option.none, some "keep", some "spec", some "critical",
            ConfVal.num (mkRat 9 10), Option.none, false, false, false⟩],
          some [⟨false, some "major", Option.none, Option.none⟩],
          true⟩ = [] :=
  (claim_C10_validator_weaker_than_schema _ _ _ _
    rfl (by decide) rfl (by intro d hd; fin_cases hd; decide)
    rfl (by intro c hc; fin_cases hc; decide) rfl).1

/-- Claim C8 is false as stated: the final `json.loads` call on the
brace-pair slice (line 573) is not wrapped in the
`except json.JSONDecodeError` handler, so on input `{bad}` the function
raises the JSON decode error "Expecting property name enclosed in double
quotes", not its single distinct ValueError. -/
theorem claim_C8_counterexample :
    extract_json_from_text "\x7bbad\x7d" =
        Except.error (ExtractErr.parseError JsonErr.expectingPropertyName) ∧
    ¬ ((∃ v, extract_json_from_text "\x7bbad\x7d" = Except.ok v) ∨
        extract_json_from_text "\x7bbad\x7d" = Except.error ExtractErr.noValidJson) := by
  have h : extract_json_from_text "\x7bbad\x7d" =
      Except.error (ExtractErr.parseError JsonErr.expectingPropertyName) := by rfl
  refine ⟨h, ?_⟩
  rintro (⟨v, hv⟩ | hv) <;> rw [h] at hv <;> simp at hv

/-- Claim C8 amended: `extract_json_from_text` either returns a parsed
structure, or fails with its distinct error ("provider response did not
contain valid JSON") — and that happens exactly when the cleaned text
has no outermost brace pair — or, when a brace pair exists but its
slice is invalid JSON, propagates that slice's JSON decode error
(a different exception) uncaught. -/
theorem claim_C8_amended_failure_modes (text : String) :
    (hasBracePair (cleanedOf text) = false →
      (∃ v, extract_json_from_text text = Except.ok v) ∨
        extract_json_from_text text = Except.error ExtractErr.noValidJson) ∧
    (hasBracePair (cleanedOf text) = true →
      (∃ v, extract_json_from_text text = Except.ok v) ∨
        ∃ e, extract_json_from_text text = Except.error (ExtractErr.parseError e) ∧
          json_loads (String.mk (braceSlice (cleanedOf text))) = Except.error e) ∧
    (extract_json_from_text text = Except.error ExtractErr.noValidJson →
      hasBracePair (cleanedOf text) = false) := by
  have hmain :
      (∃ v, extract_json_from_text text = Except.ok v) ∨
      (hasBracePair (cleanedOf text) = false ∧
        extract_json_from_text text = Except.error ExtractErr.noValidJson) ∨
      (hasBracePair (cleanedOf text) = true ∧
        ∃ e, extract_json_from_text text = Except.error (ExtractErr.parseError e) ∧
          json_loads (String.mk (braceSlice (cleanedOf text))) = Except.error e) := by
    simp only [extract_json_from_text, hasBracePair, braceSlice]
    cases h1 : json_loads (String.mk (cleanedOf text)) with
    | ok v => exact Or.inl ⟨v, rfl⟩
    | error e0 =>
        cases h2 : braceStart (cleanedOf text) with
        | none => exact Or.inr (Or.inl ⟨rfl, rfl⟩)
        | some s =>
            cases h3 : braceEnd (cleanedOf text) with
            | none => exact Or.inr (Or.inl ⟨rfl, rfl⟩)
            | some e =>
                by_cases hlt : s < e
                · cases h4 :
                      json_loads (String.mk (((cleanedOf text).drop s).take (e + 1 - s))) with
                  | ok v => exact Or.inl ⟨v, by simp [hlt, h4]⟩
                  | error e1 =>
                      exact Or.inr (Or.inr ⟨by simp [hlt], e1, by simp [hlt, h4], rfl⟩)
                · exact Or.inr (Or.inl ⟨by simp [hlt], by simp [hlt]⟩)
  refine ⟨fun hbp => ?_, fun hbp => ?_, fun hno => ?_⟩
  · rcases hmain with h | ⟨_, h⟩ | ⟨hb, h⟩
    · exact Or.inl h
    · exact Or.inr h
    · exact absurd hb (by simp [hbp])
  · rcases hmain with h | ⟨hb, _⟩ | ⟨_, e, h, hj⟩
    · exact Or.inl h
    · exact absurd hb (by simp [hbp])
    · exact Or.inr ⟨e, h, hj⟩
  · rcases hmain with ⟨v, h⟩ | ⟨hb, _⟩ | ⟨_, e, h, _⟩
    · rw [h] at hno; simp at hno
    · exact hb
    · rw [h] at hno; simp at hno

/-- Witness for the amended C8: a brace-free invalid input hits the
distinct-error branch. -/
theorem claim_C8_amended_failure_modes_witness :
    (∃ v, extract_json_from_text "xxx" = Except.ok v) ∨
      extract_json_from_text "xxx" = Except.error ExtractErr.noValidJson :=
  (claim_C8_amended_failure_modes "xxx").1 (by rfl)

/-- `SEVERITY_ORDER` is exactly the rank map of the spec enumeration. -/
theorem SEVERITY_ORDER_eq_map (s : String) :
    SEVERITY_ORDER s = (parseSev s).map Sev.rank := by
  unfold SEVERITY_ORDER parseSev
  split_ifs <;> rfl

/-- Printing then parsing a severity is the identity. -/
theorem parseSev_toStr (v : Sev) : parseSev v.toStr = some v := by
  cases v <;> rfl

/-- A parseable severity string is the print of its value. -/
theorem toStr_parseSev {s : String} {v : Sev} (h : parseSev s = some v) :
    v.toStr = s := by
  unfold parseSev at h
  split_ifs at h with h1 h2 h3 h4 <;>
    (injection h with h'; subst h'; simp_all [Sev.toStr])

/-- `SEVERITY_ORDER.get(v.toStr, 0)` is the rank of `v`. -/
theorem sevRankD_toStr (v : Sev) : sevRankD v.toStr = v.rank := by
  cases v <;> rfl

/-- The Python `max(seen, key=SEVERITY_ORDER[.])` fold agrees with the
spec-side maximum over the parsed severities. -/
theorem foldl_pyMax_eq_spec (L : List String) :
    ∀ a : Sev, (∀ s ∈ L, (parseSev s).isSome = true) →
      L.foldl (fun acc x => if sevRankD acc < sevRankD x then x else acc) a.toStr =
        ((L.filterMap parseSev).foldl Sev.maxS a).toStr := by
  induction L with
  | nil => intro a _; rfl
  | cons x L ih =>
      intro a hL
      obtain ⟨xv, hxv⟩ := Option.isSome_iff_exists.mp (hL x (List.mem_cons_self x L))
      have hx : x = xv.toStr := (toStr_parseSev hxv).symm
      have hstep :
          (if sevRankD (Sev.toStr a) < sevRankD x then x else Sev.toStr a) =
            (Sev.maxS a xv).toStr := by
        rw [hx, sevRankD_toStr, sevRankD_toStr]
        unfold Sev.maxS
        split_ifs <;> rfl
      have hfm : List.filterMap parseSev (x :: L) = xv :: List.filterMap parseSev L := by
        simp [List.filterMap_cons, hxv]
      rw [List.foldl_cons, hstep, hfm, List.foldl_cons]
      exact ih (Sev.maxS a xv) (fun s hs => hL s (List.mem_cons_of_mem _ hs))

/-- Whatever the document branch of the aggregation appends parses. -/
theorem docSeenSeverity_parseable {mc : ℚ} {d : DocEntry} {s : String}
    (h : docSeenSeverity mc d = some s) : (parseSev s).isSome = true := by
  unfold docSeenSeverity at h
  cases hc : confAsNumber d.confidence with
  | none => rw [hc] at h; cases h
  | some q =>
      rw [hc] at h
      dsimp only at h
      split_ifs at h with hcond
      · injection h with h'
        subst h'
        rw [Bool.and_eq_true] at hcond
        have h1 := hcond.1
        rw [SEVERITY_ORDER_eq_map] at h1
        cases hp : parseSev (d.severity.getD "none") with
        | none => rw [hp] at h1; cases h1
        | some v => rfl

/-- Whatever the conflict branch of the aggregation appends parses. -/
theorem conflictSeenSeverity_parseable {c : ConflictEntry} {s : String}
    (h : conflictSeenSeverity c = some s) : (parseSev s).isSome = true := by
  unfold conflictSeenSeverity at h
  dsimp only at h
  split_ifs at h with hcond
  · injection h with h'
    subst h'
    rw [SEVERITY_ORDER_eq_map] at hcond
    cases hp : parseSev (c.severity.getD "none") with
    | none => rw [hp] at hcond; cases hcond
    | some v => rfl

/-- On a validator-approved document entry, appending-then-parsing in
the code agrees with the spec's confidence-filtered severity. -/
theorem docSeen_bind_parse {mc : ℚ} {d : DocEntry} (hok : docEntryOk d = true) :
    (docSeenSeverity mc d).bind parseSev =
      (match d.confidence with
       | ConfVal.num q =>
           if mc ≤ q then parseSev (d.severity.getD "none") else Option.none
       | _ => Option.none) := by
  unfold docEntryOk at hok
  rw [Bool.and_eq_true, Bool.and_eq_true, Bool.and_eq_true] at hok
  obtain ⟨⟨⟨hsev, _⟩, _⟩, hconf⟩ := hok
  cases hc : d.confidence with
  | num q =>
      unfold docSeenSeverity confAsNumber
      rw [hc]
      dsimp only
      have hsev' : (SEVERITY_ORDER (d.severity.getD "none")).isSome = true := by
        cases hs : d.severity with
        | none => rw [hs] at hsev; simp [isAllowedSeverity] at hsev
        | some sev => rw [hs] at hsev; simpa [isAllowedSeverity] using hsev
      rw [hsev']
      by_cases hq : mc ≤ q
      · simp [hq]
      · simp [hq]
  | missing => rw [hc] at hconf; cases hconf
  | nonnum => rw [hc] at hconf; cases hconf

/-- The conflict branch followed by parsing is exactly the spec's
conflict severity (no confidence involved). -/
theorem conflictSeen_bind_parse (c : ConflictEntry) :
    (conflictSeenSeverity c).bind parseSev = parseSev (c.severity.getD "none") := by
  unfold conflictSeenSeverity
  dsimp only
  have hiso : (SEVERITY_ORDER (c.severity.getD "none")).isSome =
      (parseSev (c.severity.getD "none")).isSome := by
    rw [SEVERITY_ORDER_eq_map]
    cases parseSev (c.severity.getD "none") <;> rfl
  cases hp : parseSev (c.severity.getD "none") with
  | none => rw [hp] at hiso; rw [hiso]; simp [hp]
  | some v => rw [hp] at hiso; rw [hiso]; simp [hp]

/-- Claim C2: for every judge output the validator approves and every
confidence floor, the code's aggregate equals the spec's maximum, under
the severity order, of `global.max_severity`, every cross-document
conflict severity (regardless of any confidence), and every
per-document severity whose confidence is at least the floor; findings
below the floor contribute nothing. -/
theorem claim_C2_judge_aggregate_refines_spec (m : ModelOutput) (floor : ℚ)
    (hval : validate_model_output m = []) :
    max_observed_severity_with_confidence m floor =
      (judgeAggregateSpec m floor).toStr := by
  obtain ⟨⟨hgsome, hdsome, hcsome, hin⟩, hsev, hdocs, hcfl⟩ :=
    (validate_eq_nil_iff m).mp hval
  obtain ⟨g, hg⟩ := Option.isSome_iff_exists.mp hgsome
  obtain ⟨ds, hds⟩ := Option.isSome_iff_exists.mp hdsome
  obtain ⟨cs, hcs⟩ := Option.isSome_iff_exists.mp hcsome
  rw [hg] at hsev
  rw [hds] at hdocs
  simp only [Option.getD_some] at hsev hdocs
  obtain ⟨gs, hgs_eq, gv, hgv⟩ :
      ∃ s, g.max_severity = some s ∧ ∃ v, parseSev s = some v := by
    cases hmax : g.max_severity with
    | none => rw [hmax] at hsev; simp [isAllowedSeverity] at hsev
    | some s =>
        rw [hmax] at hsev
        have hso : (SEVERITY_ORDER s).isSome = true := by
          simpa [isAllowedSeverity] using hsev
        rw [SEVERITY_ORDER_eq_map] at hso
        cases hp : parseSev s with
        | none => rw [hp] at hso; cases hso
        | some v => exact ⟨s, rfl, v, hp⟩
  simp only [max_observed_severity_with_confidence]
  rw [hg, hds, hcs]
  simp only [Option.getD_some, hgs_eq]
  have hvalid1 : ∀ s ∈ ds.filterMap (docSeenSeverity floor),
      (parseSev s).isSome = true := by
    intro s hs
    obtain ⟨d, _, hd⟩ := List.mem_filterMap.mp hs
    exact docSeenSeverity_parseable hd
  have hvalid2 : ∀ s ∈ cs.filterMap conflictSeenSeverity,
      (parseSev s).isSome = true := by
    intro s hs
    obtain ⟨c, _, hc⟩ := List.mem_filterMap.mp hs
    exact conflictSeenSeverity_parseable hc
  have hall : ∀ s ∈ gs :: (ds.filterMap (docSeenSeverity floor) ++
      cs.filterMap conflictSeenSeverity), (SEVERITY_ORDER s).isSome = true := by
    intro s hs
    rw [SEVERITY_ORDER_eq_map]
    rcases List.mem_cons.mp hs with rfl | hs2
    · rw [hgv]; rfl
    · have hp : (parseSev s).isSome = true := by
        rcases List.mem_append.mp hs2 with h | h
        · exact hvalid1 s h
        · exact hvalid2 s h
      cases hq : parseSev s with
      | none => rw [hq] at hp; cases hp
      | some v => rfl
  rw [List.filter_eq_self.mpr hall]
  simp only [List.isEmpty_cons, Bool.false_eq_true, if_false, pyMaxBySeverity]
  simp only [judgeAggregateSpec]
  rw [hg, hds, hcs]
  simp only [Option.getD_some, hgs_eq, hgv]
  have hgs_str : gs = gv.toStr := (toStr_parseSev hgv).symm
  rw [hgs_str]
  rw [foldl_pyMax_eq_spec _ gv (by
    intro s hs
    rcases List.mem_append.mp hs with h | h
    · exact hvalid1 s h
    · exact hvalid2 s h)]
  have h1 : (ds.filterMap (docSeenSeverity floor)).filterMap parseSev =
      ds.filterMap (fun d =>
        match d.confidence with
        | ConfVal.num q =>
            if floor ≤ q then parseSev (d.severity.getD "none") else Option.none
        | _ => Option.none) := by
    rw [List.filterMap_filterMap]
    exact List.filterMap_congr (fun d hd => docSeen_bind_parse (hdocs d hd))
  have h2 : (cs.filterMap conflictSeenSeverity).filterMap parseSev =
      cs.filterMap (fun c => parseSev (c.severity.getD "none")) := by
    rw [List.filterMap_filterMap]
    exact List.filterMap_congr (fun c _ => conflictSeen_bind_parse c)
  rw [List.filterMap_append, h1, h2]

/-- Witness for C2: a validated output whose single document finding is
`critical` with confidence 1/2; the aggregate excludes it at floor 4/5
and includes it at floor 1/2. -/
theorem claim_C2_judge_aggregate_refines_spec_witness :
    max_observed_severity_with_confidence
        ⟨some ⟨Option.none, Option.none, some "none", false⟩,
          some [⟨Option.none, some "keep", some "spec", some "critical",
            ConfVal.num (mkRat 1 2), Option.none, false, false, false⟩],
          some [], true⟩ (mkRat 4 5) = "none" ∧
    max_observed_severity_with_confidence
        ⟨some ⟨Option.none, Option.none, some "none", false⟩,
          some [⟨Option.none, some "keep", some "spec", some "critical",
            ConfVal.num (mkRat 1 2), Option.none, false, false, false⟩],
          some [], true⟩ (mkRat 1 2) = "critical" := by
  have h1 := claim_C2_judge_aggregate_refines_spec
    ⟨some ⟨Option.none, Option.none, some "none", false⟩,
      some [⟨Option.none, some "keep", some "spec", some "critical",
        ConfVal.num (mkRat 1 2), Option.none, false, false, false⟩],
      some [], true⟩ (mkRat 4 5) (by decide)
  have h2 := claim_C2_judge_aggregate_refines_spec
    ⟨some ⟨Option.none, Option.none, some "none", false⟩,
      some [⟨Option.none, some "keep", some "spec", some "critical",
        ConfVal.num (mkRat 1 2), Option.none, false, false, false⟩],
      some [], true⟩ (mkRat 1 2) (by decide)
  exact ⟨h1.trans (by decide), h2.trans (by decide)⟩
